import Mathlib

/-!
Verification of the planner subsystem (and the classes creation endpoint) of
the Student-Life-Toolkit server (src/index.js).

The MongoDB collection `monthlyPlannerTasks` is modelled as a list of
documents in insertion order; `findOne` returns the first document matching
the filter, `updateOne` modifies the first matching document, `insertOne`
appends at the end, `deleteMany({})` clears the collection.  Task bodies
arriving as JSON are modelled with `Option String` fields (`none` = field
absent); JavaScript truthiness of a string field (`!date`) is the predicate
`falsy` (absent or empty).  Numeric task identifiers are `Nat`.
-/

namespace StudentToolkit

/-- A planner task as created by POST /planner (src/index.js lines 404-411). -/
structure PlannerTask where
  id : Nat
  subject : String
  priority : String
  notes : String
  completed : Bool
  notified : Bool
deriving Repr, DecidableEq

/-- One document of the `monthlyPlannerTasks` collection: `{ date, tasks }`. -/
structure PlannerDoc where
  date : String
  tasks : List PlannerTask
deriving Repr, DecidableEq

/-- The collection state: documents in insertion order. -/
abbrev PlannerState := List PlannerDoc

/-- JavaScript truthiness check on an optional string body field:
`!x` is true when the field is absent, null, or the empty string. -/
def falsy : Option String → Bool
  | none => true
  | some s => s.isEmpty

/-- `plannerCollection.findOne({ date })`: first document whose date matches. -/
def findOneByDate (σ : PlannerState) (d : String) : Option PlannerDoc :=
  σ.find? (fun doc => doc.date == d)

/-- `updateOne(filter, update)`: apply `f` to the first document satisfying
`p`; a no-op when no document matches. -/
def updateFirst (σ : PlannerState) (p : PlannerDoc → Bool) (f : PlannerDoc → PlannerDoc) :
    PlannerState :=
  match σ with
  | [] => []
  | doc :: rest => if p doc then f doc :: rest else doc :: updateFirst rest p f

/-- The positional update `{ $set: { "tasks.$.completed" / "tasks.$.notified" } }`
applies `f` to the first task in the array whose id matches. -/
def setFirstTask (ts : List PlannerTask) (i : Nat) (f : PlannerTask → PlannerTask) :
    List PlannerTask :=
  match ts with
  | [] => []
  | t :: rest => if t.id == i then f t :: rest else t :: setFirstTask rest i f

/-- Look up the task the handlers read: first document for the date, then the
first task in its array with the given id (`taskDoc.tasks.find(t => t.id == id)`). -/
def findTask (σ : PlannerState) (d : String) (i : Nat) : Option PlannerTask :=
  (findOneByDate σ d).bind (fun doc => doc.tasks.find? (fun t => t.id == i))

/-- Result of POST /planner: HTTP status, the created task when any,
the collection state afterwards, and the number of document writes issued. -/
structure AddResult where
  status : Nat
  created : Option PlannerTask
  state : PlannerState
  writes : Nat
deriving Repr, DecidableEq

/-- POST /planner (src/index.js lines 398-429).  Validates `!date || !subject`,
builds the new task (id from `Date.now()`, passed in as `nid`), then either
`$push`es onto the existing document for the date or inserts a fresh one. -/
def addTask (σ : PlannerState) (date subject priority notes : Option String)
    (nid : Nat) : AddResult :=
  if falsy date || falsy subject then
    ⟨400, none, σ, 0⟩
  else
    let d := date.getD ""
    let newTask : PlannerTask :=
      { id := nid
        subject := subject.getD ""
        priority := if falsy priority then "Medium" else priority.getD ""
        notes := if falsy notes then "" else notes.getD ""
        completed := false
        notified := false }
    match findOneByDate σ d with
    | some _ =>
        ⟨201, some newTask,
          updateFirst σ (fun doc => doc.date == d)
            (fun doc => { doc with tasks := doc.tasks ++ [newTask] }), 1⟩
    | none => ⟨201, some newTask, σ ++ [⟨d, [newTask]⟩], 1⟩

/-- Result of PUT /planner/:date/:id and POST /planner/notify/:id:
HTTP status and the collection state afterwards. -/
structure PutResult where
  status : Nat
  state : PlannerState
deriving Repr, DecidableEq

/-- PUT /planner/:date/:id (src/index.js lines 432-476).  Body fields:
`completed` (optional boolean) and `date` (the optional new date, `newDate`).
First the toggle step runs when `completed !== undefined`; then the move step
runs when `newDate` is truthy and differs from the path date.  When no
document for the source date exists, `taskDoc.tasks` throws a TypeError which
the catch block turns into a 500 response. -/
def putPlanner (σ : PlannerState) (date : String) (i : Nat)
    (completed : Option Bool) (newDate : Option String) : PutResult :=
  let σ1 :=
    match completed with
    | none => σ
    | some c =>
        updateFirst σ
          (fun doc => doc.date == date && doc.tasks.any (fun t => t.id == i))
          (fun doc =>
            { doc with
              tasks := setFirstTask doc.tasks i (fun t => { t with completed := c }) })
  match newDate with
  | none => ⟨200, σ1⟩
  | some nd =>
    if nd.isEmpty || nd == date then ⟨200, σ1⟩
    else
      match findOneByDate σ1 date with
      | none => ⟨500, σ1⟩
      | some taskDoc =>
        match taskDoc.tasks.find? (fun t => t.id == i) with
        | none => ⟨404, σ1⟩
        | some task =>
          let σ2 :=
            updateFirst σ1 (fun doc => doc.date == date)
              (fun doc => { doc with tasks := doc.tasks.filter (fun t => t.id != i) })
          match findOneByDate σ2 nd with
          | some _ =>
              ⟨200, updateFirst σ2 (fun doc => doc.date == nd)
                  (fun doc => { doc with tasks := doc.tasks ++ [task] })⟩
          | none => ⟨200, σ2 ++ [⟨nd, [task]⟩]⟩

/-- DELETE /planner/:date/:id (src/index.js lines 479-491).  One `updateOne`
with `$pull: { tasks: { id: Number(id) } }`, then `{ success: true }`
unconditionally. -/
def deleteTask (σ : PlannerState) (date : String) (i : Nat) : PutResult :=
  ⟨200, updateFirst σ (fun doc => doc.date == date)
      (fun doc => { doc with tasks := doc.tasks.filter (fun t => t.id != i) })⟩

/-- POST /planner/import (src/index.js lines 494-508).  `deleteMany({})` then
`insertMany` of one document per key of the imported JSON object (keys in
object insertion order). -/
def importPlanner (_σ : PlannerState) (m : List (String × List PlannerTask)) :
    PlannerState :=
  m.map (fun p => ⟨p.1, p.2⟩)

/-- Assignment `result[k] = v` on a JavaScript object modelled as an ordered
association list: an existing key keeps its position and is overwritten, a
new key is appended. -/
def objInsert (l : List (String × List PlannerTask)) (k : String)
    (v : List PlannerTask) : List (String × List PlannerTask) :=
  if l.any (fun p => p.1 == k) then
    l.map (fun p => if p.1 == k then (k, v) else p)
  else l ++ [(k, v)]

/-- GET /planner/export (src/index.js lines 511-524), identical to the
GET /planner projection: `docs.forEach(doc => result[doc.date] = doc.tasks)`. -/
def exportPlanner (σ : PlannerState) : List (String × List PlannerTask) :=
  σ.foldl (fun acc doc => objInsert acc doc.date doc.tasks) []

/-- POST /planner/notify/:id (src/index.js lines 527-607).  `sendOk` is the
outcome of the `transporter.sendMail` call on the external mail transport:
`false` means the await throws and the catch block answers 500. -/
def notifyTask (σ : PlannerState) (i : Nat) (date : String) (sendOk : Bool) :
    PutResult :=
  match findOneByDate σ date with
  | none => ⟨404, σ⟩
  | some taskDoc =>
    match taskDoc.tasks.find? (fun t => t.id == i) with
    | none => ⟨404, σ⟩
    | some task =>
      if task.notified then ⟨400, σ⟩
      else if sendOk then
        ⟨200, updateFirst σ
            (fun doc => doc.date == date && doc.tasks.any (fun t => t.id == i))
            (fun doc =>
              { doc with
                tasks := setFirstTask doc.tasks i (fun t => { t with notified := true }) })⟩
      else ⟨500, σ⟩

/-- A class-creation request body; every field is optional because the
handler never validates it. -/
structure ClassBody where
  name : Option String
  instructor : Option String
  day : Option String
  startTime : Option String
  endTime : Option String
  color : Option String
deriving Repr, DecidableEq

/-- Result of POST /api/classes: HTTP status, the `classes` collection state
afterwards, and the number of document writes issued. -/
structure ClassesResult where
  status : Nat
  state : List ClassBody
  writes : Nat
deriving Repr, DecidableEq

/-- POST /api/classes (src/index.js lines 136-145): `insertOne(req.body)`
unconditionally, then `res.json(...)` (status 200). -/
def postClass (σ : List ClassBody) (b : ClassBody) : ClassesResult :=
  ⟨200, σ ++ [b], 1⟩

/-! ### Helper lemmas about the store primitives -/

theorem updateFirst_of_find?_none (σ : PlannerState) (p : PlannerDoc → Bool)
    (f : PlannerDoc → PlannerDoc) (h : σ.find? p = none) :
    updateFirst σ p f = σ := by
  induction σ with
  | nil => rfl
  | cons a rest ih =>
    rw [List.find?_cons] at h
    cases hpa : p a with
    | true => simp [hpa] at h
    | false =>
      simp only [hpa] at h
      simp [updateFirst, hpa, ih h]

theorem updateFirst_id_on_match (σ : PlannerState) (p : PlannerDoc → Bool)
    (f : PlannerDoc → PlannerDoc)
    (h : ∀ doc, σ.find? p = some doc → f doc = doc) :
    updateFirst σ p f = σ := by
  induction σ with
  | nil => rfl
  | cons a rest ih =>
    cases hpa : p a with
    | true =>
      have ha : f a = a := h a (by rw [List.find?_cons, hpa])
      simp [updateFirst, hpa, ha]
    | false =>
      have hrest : ∀ doc, rest.find? p = some doc → f doc = doc := by
        intro doc hd
        exact h doc (by rw [List.find?_cons, hpa]; exact hd)
      simp [updateFirst, hpa, ih hrest]

theorem map_date_updateFirst (σ : PlannerState) (p : PlannerDoc → Bool)
    (f : PlannerDoc → PlannerDoc) (hf : ∀ x, (f x).date = x.date) :
    (updateFirst σ p f).map PlannerDoc.date = σ.map PlannerDoc.date := by
  induction σ with
  | nil => rfl
  | cons a rest ih =>
    cases hpa : p a with
    | true => simp [updateFirst, hpa, hf]
    | false => simp [updateFirst, hpa, ih]

theorem forall₂_updateFirst (σ : PlannerState) (p : PlannerDoc → Bool)
    (f : PlannerDoc → PlannerDoc) :
    List.Forall₂ (fun a b => a = b ∨ (p b = true ∧ a = f b)) (updateFirst σ p f) σ := by
  induction σ with
  | nil => exact List.Forall₂.nil
  | cons a rest ih =>
    cases hpa : p a with
    | true =>
      simp only [updateFirst, hpa, if_true]
      exact List.Forall₂.cons (Or.inr ⟨hpa, rfl⟩)
        (List.forall₂_same.mpr (fun x _ => Or.inl rfl))
    | false =>
      simp only [updateFirst, hpa, if_false]
      exact List.Forall₂.cons (Or.inl rfl) ih

theorem find?_updateFirst_of_stronger (σ : PlannerState) (p q : PlannerDoc → Bool)
    (f : PlannerDoc → PlannerDoc) (doc : PlannerDoc)
    (hpq : ∀ x, p x = true → q x = true)
    (hq : σ.find? q = some doc) (hp : p doc = true) (hqf : q (f doc) = true) :
    (updateFirst σ p f).find? q = some (f doc) := by
  induction σ with
  | nil => simp at hq
  | cons a rest ih =>
    cases hqa : q a with
    | true =>
      rw [List.find?_cons, hqa] at hq
      injection hq with hq
      subst hq
      simp [updateFirst, hp, List.find?_cons, hqf]
    | false =>
      rw [List.find?_cons, hqa] at hq
      have hpa : p a = false := by
        cases hpa : p a with
        | false => rfl
        | true => simp [hpq a hpa] at hqa
      simp [updateFirst, hpa, List.find?_cons, hqa, ih hq]

theorem find?_updateFirst_of_notpred (σ : PlannerState) (p q : PlannerDoc → Bool)
    (f : PlannerDoc → PlannerDoc)
    (hq : ∀ x, q x = true → p x = false)
    (hqf : ∀ x, q (f x) = q x) :
    (updateFirst σ p f).find? q = σ.find? q := by
  induction σ with
  | nil => rfl
  | cons a rest ih =>
    cases hpa : p a with
    | true =>
      have hqa : q a = false := by
        cases hqa : q a with
        | false => rfl
        | true => simp [hq a hqa] at hpa
      simp [updateFirst, hpa, List.find?_cons, hqf, hqa]
    | false =>
      cases hqa : q a with
      | true => simp [updateFirst, hpa, List.find?_cons, hqa]
      | false => simp [updateFirst, hpa, List.find?_cons, hqa, ih]

theorem find?_setFirstTask (ts : List PlannerTask) (i : Nat)
    (f : PlannerTask → PlannerTask) (t : PlannerTask)
    (h : ts.find? (fun t => t.id == i) = some t) (hf : (f t).id = t.id) :
    (setFirstTask ts i f).find? (fun t => t.id == i) = some (f t) := by
  induction ts with
  | nil => simp at h
  | cons a rest ih =>
    cases ha : (a.id == i) with
    | true =>
      rw [List.find?_cons, ha] at h
      injection h with h
      subst h
      simp [setFirstTask, ha, List.find?_cons, hf]
    | false =>
      rw [List.find?_cons, ha] at h
      simp [setFirstTask, ha, List.find?_cons, ih h]

theorem objInsert_of_not_mem (acc : List (String × List PlannerTask)) (k : String)
    (v : List PlannerTask) (h : acc.any (fun p => p.1 == k) = false) :
    objInsert acc k v = acc ++ [(k, v)] := by
  simp [objInsert, h]

theorem foldl_objInsert (σ : PlannerState) (acc : List (String × List PlannerTask))
    (hdisj : ∀ doc ∈ σ, acc.any (fun p => p.1 == doc.date) = false)
    (h : (σ.map PlannerDoc.date).Nodup) :
    σ.foldl (fun acc doc => objInsert acc doc.date doc.tasks) acc
      = acc ++ σ.map (fun doc => (doc.date, doc.tasks)) := by
  induction σ generalizing acc with
  | nil => simp
  | cons doc rest ih =>
    have hd : acc.any (fun p => p.1 == doc.date) = false :=
      hdisj doc (List.mem_cons_self doc rest)
    rw [List.map_cons, List.nodup_cons] at h
    rw [List.foldl_cons, objInsert_of_not_mem acc doc.date doc.tasks hd,
      ih (acc ++ [(doc.date, doc.tasks)]) ?_ h.2]
    · simp
    · intro d hd'
      rw [List.any_append]
      have h1 : acc.any (fun p => p.1 == d.date) = false :=
        hdisj d (List.mem_cons_of_mem doc hd')
      have h2 : d.date ≠ doc.date := by
        intro he
        exact h.1 (he ▸ List.mem_map_of_mem PlannerDoc.date hd')
      simp [h1, h2.symm]

theorem exportPlanner_eq_map (σ : PlannerState) (h : (σ.map PlannerDoc.date).Nodup) :
    exportPlanner σ = σ.map (fun doc => (doc.date, doc.tasks)) := by
  rw [exportPlanner, foldl_objInsert σ [] (fun doc _ => rfl) h, List.nil_append]

theorem date_of_findOneByDate (σ : PlannerState) (d : String) (doc : PlannerDoc)
    (h : findOneByDate σ d = some doc) : doc.date = d := by
  have h2 := List.find?_some (p := fun x : PlannerDoc => x.date == d) h
  simpa using h2

theorem beq_date_of_findOneByDate (σ : PlannerState) (d : String) (doc : PlannerDoc)
    (h : findOneByDate σ d = some doc) : (doc.date == d) = true := by
  simp [date_of_findOneByDate σ d doc h]

theorem findOneByDate_updateFirst_self (σ : PlannerState) (d : String)
    (f : PlannerDoc → PlannerDoc) (doc : PlannerDoc)
    (hf : ∀ x, (f x).date = x.date) (h : findOneByDate σ d = some doc) :
    findOneByDate (updateFirst σ (fun doc => doc.date == d) f) d = some (f doc) := by
  apply find?_updateFirst_of_stronger σ _ _ f doc (fun _ hx => hx) h
  · exact beq_date_of_findOneByDate σ d doc h
  · show ((f doc).date == d) = true
    rw [hf doc]
    exact beq_date_of_findOneByDate σ d doc h

theorem findOneByDate_updateFirst_other (σ : PlannerState) (d d' : String)
    (f : PlannerDoc → PlannerDoc) (hf : ∀ x, (f x).date = x.date) (hne : d' ≠ d) :
    findOneByDate (updateFirst σ (fun doc => doc.date == d) f) d'
      = findOneByDate σ d' := by
  apply find?_updateFirst_of_notpred
  · intro x hx
    have hx2 : x.date = d' := by simpa using hx
    simp [hx2, hne]
  · intro x
    show ((f x).date == d') = (x.date == d')
    rw [hf x]

/-! ### Claim theorems -/

/-- C6 (counterexample): creating a class with the `instructor` field missing
does NOT fail with a 400 ValidationError and does NOT skip the store write:
the handler answers 200 and issues one insert. -/
theorem post_class_missing_instructor_cex :
    (postClass [] ⟨some "Algebra", none, some "Mon", some "09:00", some "10:00",
        some "blue"⟩).status = 200 ∧
    (postClass [] ⟨some "Algebra", none, some "Mon", some "09:00", some "10:00",
        some "blue"⟩).writes = 1 ∧
    ¬ ((postClass [] ⟨some "Algebra", none, some "Mon", some "09:00", some "10:00",
        some "blue"⟩).status = 400 ∧
       (postClass [] ⟨some "Algebra", none, some "Mon", some "09:00", some "10:00",
        some "blue"⟩).writes = 0) := by
  decide

/-- C6 (amended): POST /api/classes performs no validation at all: every
request body — in particular one with `instructor` missing — is inserted
as-is with exactly one store write and answered with status 200. -/
theorem post_class_no_validation (σ : List ClassBody) (b : ClassBody) :
    (postClass σ b).status = 200 ∧ (postClass σ b).state = σ ++ [b] ∧
    (postClass σ b).writes = 1 :=
  ⟨rfl, rfl, rfl⟩

/-- C7: DELETE /planner/:date/:id always answers success (200); deleting a
task that does not exist leaves the planner state unchanged; and applying
the delete twice yields the same outcome as applying it once. -/
theorem delete_task_idempotent (σ : PlannerState) (d : String) (i : Nat) :
    (deleteTask σ d i).status = 200 ∧
    (findTask σ d i = none → (deleteTask σ d i).state = σ) ∧
    deleteTask (deleteTask σ d i).state d i = deleteTask σ d i := by
  refine ⟨rfl, ?_, ?_⟩
  · intro h
    rw [findTask] at h
    show updateFirst σ _ _ = σ
    cases hfd : findOneByDate σ d with
    | none => exact updateFirst_of_find?_none σ _ _ hfd
    | some doc =>
      rw [hfd, Option.some_bind] at h
      apply updateFirst_id_on_match
      intro doc' hdoc'
      rw [findOneByDate] at hfd
      rw [hfd] at hdoc'
      injection hdoc' with he
      subst he
      have hall : ∀ t ∈ doc.tasks, (t.id != i) = true := by
        intro t htm
        have h2 := List.find?_eq_none.mp h t htm
        simpa using h2
      rw [List.filter_eq_self.mpr hall]
  · show PutResult.mk 200 (updateFirst (updateFirst σ _ _) _ _) = PutResult.mk 200 _
    congr 1
    cases hfd : findOneByDate σ d with
    | none =>
      rw [updateFirst_of_find?_none σ _ _ hfd, updateFirst_of_find?_none σ _ _ hfd]
    | some doc =>
      have hstep := findOneByDate_updateFirst_self σ d
        (fun doc => { doc with tasks := doc.tasks.filter (fun t => t.id != i) }) doc
        (fun _ => rfl) hfd
      apply updateFirst_id_on_match
      intro doc' hdoc'
      rw [findOneByDate] at hstep
      rw [hstep] at hdoc'
      injection hdoc' with he
      subst he
      have hall : ∀ t ∈ doc.tasks.filter (fun t => t.id != i), (t.id != i) = true :=
        fun t htm => (List.mem_filter.mp htm).2
      simp only [List.filter_eq_self.mpr hall]

/-- C7 (witness). -/
theorem delete_task_idempotent_witness :
    (deleteTask [⟨"a", []⟩] "a" 5).status = 200 ∧
    (deleteTask [⟨"a", []⟩] "a" 5).state = [⟨"a", []⟩] ∧
    deleteTask (deleteTask [⟨"a", []⟩] "a" 5).state "a" 5 = deleteTask [⟨"a", []⟩] "a" 5 :=
  ⟨(delete_task_idempotent [⟨"a", []⟩] "a" 5).1,
   (delete_task_idempotent [⟨"a", []⟩] "a" 5).2.1 rfl,
   (delete_task_idempotent [⟨"a", []⟩] "a" 5).2.2⟩

/-- C8: a toggle request (body has `completed`, no new date) for a
(date, id) pair no document matches is a no-op answered with success. -/
theorem toggle_missing_noop (σ : PlannerState) (d : String) (i : Nat) (c : Bool)
    (h : σ.find? (fun doc => doc.date == d && doc.tasks.any (fun t => t.id == i))
        = none) :
    putPlanner σ d i (some c) none = ⟨200, σ⟩ := by
  show PutResult.mk 200 (updateFirst σ _ _) = _
  rw [updateFirst_of_find?_none σ _ _ h]

/-- C8 (witness). -/
theorem toggle_missing_noop_witness :
    putPlanner [⟨"a", [⟨1, "Math", "High", "", false, false⟩]⟩] "a" 9 (some true) none
      = ⟨200, [⟨"a", [⟨1, "Math", "High", "", false, false⟩]⟩]⟩ :=
  toggle_missing_noop [⟨"a", [⟨1, "Math", "High", "", false, false⟩]⟩] "a" 9 true rfl

/-- C9: when the mail transport fails, POST /planner/notify/:id answers 500
and leaves the state unchanged (the task keeps notified = false); the
notified flag can only change when the send succeeds. -/
theorem notify_mail_failure (σ : PlannerState) (d : String) (i : Nat)
    (t : PlannerTask) (ht : findTask σ d i = some t) (hn : t.notified = false) :
    notifyTask σ i d false = ⟨500, σ⟩ ∧
    findTask (notifyTask σ i d false).state d i = some t ∧
    (∀ b : Bool, (notifyTask σ i d b).state ≠ σ → b = true) := by
  rw [findTask] at ht
  cases hfd : findOneByDate σ d with
  | none => rw [hfd] at ht; simp at ht
  | some doc =>
    rw [hfd, Option.some_bind] at ht
    have hmain : notifyTask σ i d false = ⟨500, σ⟩ := by
      simp [notifyTask, hfd, ht, hn]
    refine ⟨hmain, ?_, ?_⟩
    · rw [hmain]
      show findTask σ d i = some t
      rw [findTask, hfd, Option.some_bind]
      exact ht
    · intro b hb
      cases b with
      | true => rfl
      | false => rw [hmain] at hb; simp at hb

/-- C9 (witness). -/
theorem notify_mail_failure_witness :
    notifyTask [⟨"a", [⟨1, "Math", "High", "", false, false⟩]⟩] 1 "a" false
      = ⟨500, [⟨"a", [⟨1, "Math", "High", "", false, false⟩]⟩]⟩ ∧
    findTask (notifyTask [⟨"a", [⟨1, "Math", "High", "", false, false⟩]⟩] 1 "a"
        false).state "a" 1 = some ⟨1, "Math", "High", "", false, false⟩ :=
  ⟨(notify_mail_failure [⟨"a", [⟨1, "Math", "High", "", false, false⟩]⟩] "a" 1
      ⟨1, "Math", "High", "", false, false⟩ rfl rfl).1,
   (notify_mail_failure [⟨"a", [⟨1, "Math", "High", "", false, false⟩]⟩] "a" 1
      ⟨1, "Math", "High", "", false, false⟩ rfl rfl).2.1⟩

/-- C10: DELETE /planner/:date/:id never removes a document: the date
sequence of the collection is unchanged, every document of another date is
untouched, the named date keeps a document whose tasks are the old ones
with the id filtered out, and deleting the last task leaves an
empty-sequence document. -/
theorem delete_task_frame (σ : PlannerState) (d : String) (i : Nat) :
    ((deleteTask σ d i).state.map PlannerDoc.date) = σ.map PlannerDoc.date ∧
    List.Forall₂ (fun a b => b.date ≠ d → a = b) (deleteTask σ d i).state σ ∧
    (∀ doc, findOneByDate σ d = some doc →
      findOneByDate (deleteTask σ d i).state d
        = some ⟨d, doc.tasks.filter (fun t => t.id != i)⟩) ∧
    (∀ doc, findOneByDate σ d = some doc → (∀ t ∈ doc.tasks, t.id = i) →
      findOneByDate (deleteTask σ d i).state d = some ⟨d, []⟩) := by
  have hdate : ∀ x : PlannerDoc,
      ({ x with tasks := x.tasks.filter (fun t => t.id != i) } : PlannerDoc).date
        = x.date := fun _ => rfl
  have hfind : ∀ doc, findOneByDate σ d = some doc →
      findOneByDate (deleteTask σ d i).state d
        = some ⟨d, doc.tasks.filter (fun t => t.id != i)⟩ := by
    intro doc hfd
    have hd : doc.date = d := date_of_findOneByDate σ d doc hfd
    have hstep := findOneByDate_updateFirst_self σ d
      (fun doc => { doc with tasks := doc.tasks.filter (fun t => t.id != i) }) doc
      (fun _ => rfl) hfd
    show findOneByDate (updateFirst σ _ _) d = _
    rw [hstep]
    simp [hd]
  refine ⟨?_, ?_, hfind, ?_⟩
  · exact map_date_updateFirst σ _ _ (fun _ => rfl)
  · apply List.Forall₂.imp ?_ (forall₂_updateFirst σ _ _)
    intro a b hab hbd
    cases hab with
    | inl h => exact h
    | inr h =>
      exact absurd (by simpa using h.1) hbd
  · intro doc hfd hall
    rw [hfind doc hfd]
    have hnil : doc.tasks.filter (fun t => t.id != i) = [] := by
      apply List.filter_eq_nil_iff.mpr
      intro t htm
      simp [hall t htm]
    rw [hnil]

/-- C10 (witness). -/
theorem delete_task_frame_witness :
    ((deleteTask [⟨"a", [⟨1, "Math", "High", "", false, false⟩]⟩, ⟨"b", []⟩]
        "a" 1).state.map PlannerDoc.date)
      = ["a", "b"] ∧
    findOneByDate (deleteTask [⟨"a", [⟨1, "Math", "High", "", false, false⟩]⟩,
        ⟨"b", []⟩] "a" 1).state "a" = some ⟨"a", []⟩ :=
  ⟨(delete_task_frame [⟨"a", [⟨1, "Math", "High", "", false, false⟩]⟩, ⟨"b", []⟩]
      "a" 1).1,
   (delete_task_frame [⟨"a", [⟨1, "Math", "High", "", false, false⟩]⟩, ⟨"b", []⟩]
      "a" 1).2.2.2 ⟨"a", [⟨1, "Math", "High", "", false, false⟩]⟩ rfl
      (by intro t htm; simp at htm; rw [htm])⟩

/-- C3: POST /planner/import replaces the whole planner state with exactly
one document per date of the imported mapping M, whatever the prior state
was; GET /planner/export immediately after returns exactly M; and the round
trip import(export(S)) = S holds for every valid state S (one document per
date). -/
theorem import_export_roundtrip (σ σ' S : PlannerState)
    (m : List (String × List PlannerTask))
    (hm : (m.map Prod.fst).Nodup) (hS : (S.map PlannerDoc.date).Nodup) :
    importPlanner σ m = m.map (fun p => ⟨p.1, p.2⟩) ∧
    exportPlanner (importPlanner σ m) = m ∧
    importPlanner σ' (exportPlanner S) = S := by
  have hdates : ((m.map (fun p => (⟨p.1, p.2⟩ : PlannerDoc))).map PlannerDoc.date).Nodup := by
    rw [List.map_map]
    exact hm
  refine ⟨rfl, ?_, ?_⟩
  · rw [show importPlanner σ m = m.map (fun p => ⟨p.1, p.2⟩) from rfl,
      exportPlanner_eq_map _ hdates, List.map_map]
    exact List.map_id'' (fun p => rfl) m
  · rw [exportPlanner_eq_map S hS,
      show importPlanner σ' (S.map fun doc => (doc.date, doc.tasks))
          = (S.map fun doc => (doc.date, doc.tasks)).map (fun p => ⟨p.1, p.2⟩) from rfl,
      List.map_map]
    exact List.map_id'' (fun doc => rfl) S

/-- C3 (witness). -/
theorem import_export_roundtrip_witness :
    importPlanner [⟨"c", []⟩] [("a", []), ("b", [⟨1, "Math", "High", "", false, false⟩])]
      = [⟨"a", []⟩, ⟨"b", [⟨1, "Math", "High", "", false, false⟩]⟩] ∧
    exportPlanner (importPlanner [⟨"c", []⟩]
        [("a", []), ("b", [⟨1, "Math", "High", "", false, false⟩])])
      = [("a", []), ("b", [⟨1, "Math", "High", "", false, false⟩])] ∧
    importPlanner [⟨"c", []⟩]
        (exportPlanner [⟨"a", []⟩, ⟨"b", [⟨1, "Math", "High", "", false, false⟩]⟩])
      = [⟨"a", []⟩, ⟨"b", [⟨1, "Math", "High", "", false, false⟩]⟩] :=
  import_export_roundtrip [⟨"c", []⟩] [⟨"c", []⟩]
    [⟨"a", []⟩, ⟨"b", [⟨1, "Math", "High", "", false, false⟩]⟩]
    [("a", []), ("b", [⟨1, "Math", "High", "", false, false⟩])]
    (by decide) (by decide)

/-- C4 (counterexample): moving a task out of a date that has NO PlannerDay
record does not answer 404 as claimed: the handler dereferences the null
document, throws, and answers 500 (the state is unchanged). -/
theorem move_missing_day_cex :
    (putPlanner [] "a" 1 none (some "b")).status = 500 ∧
    ¬ (putPlanner [] "a" 1 none (some "b")).status = 404 ∧
    (putPlanner [] "a" 1 none (some "b")).state = [] := by
  decide

/-- C4 (amended): a move whose source (date, id) does not resolve leaves
the state unchanged and fails — with 404 when a document for the source
date exists but holds no task with the id, and with 500 (internal error,
from dereferencing the missing document) when no document for the source
date exists at all. -/
theorem move_missing_task_spec (σ : PlannerState) (A B : String) (i : Nat)
    (hB : B.isEmpty = false) (hBA : (B == A) = false) :
    (findOneByDate σ A = none → putPlanner σ A i none (some B) = ⟨500, σ⟩) ∧
    (∀ doc, findOneByDate σ A = some doc →
      doc.tasks.find? (fun t => t.id == i) = none →
      putPlanner σ A i none (some B) = ⟨404, σ⟩) := by
  constructor
  · intro h
    simp [putPlanner, hB, hBA, h]
  · intro doc hfd hft
    simp [putPlanner, hB, hBA, hfd, hft]

/-- C4 (witness). -/
theorem move_missing_task_witness :
    putPlanner [] "a" 1 none (some "b") = ⟨500, []⟩ ∧
    putPlanner [⟨"a", []⟩] "a" 1 none (some "b") = ⟨404, [⟨"a", []⟩]⟩ :=
  ⟨(move_missing_task_spec [] "a" "b" 1 rfl rfl).1 rfl,
   (move_missing_task_spec [⟨"a", []⟩] "a" "b" 1 rfl rfl).2 ⟨"a", []⟩ rfl rfl⟩

/-- C5: POST /planner answers 400 with no store write when date or subject
is missing (or empty, which the handler's truthiness check treats the same
way); otherwise it creates a task with completed = false, notified = false
and priority defaulting to Medium, appends it to the existing document for
the date or inserts a fresh singleton document, returns the created task
and issues exactly one document write. -/
theorem add_task_spec (σ : PlannerState)
    (date subject priority notes : Option String) (nid : Nat) :
    ((falsy date || falsy subject) = true →
      addTask σ date subject priority notes nid = ⟨400, none, σ, 0⟩) ∧
    ((falsy date || falsy subject) = false →
      ∃ t : PlannerTask,
        (addTask σ date subject priority notes nid).status = 201 ∧
        (addTask σ date subject priority notes nid).created = some t ∧
        (addTask σ date subject priority notes nid).writes = 1 ∧
        t.id = nid ∧ t.subject = subject.getD "" ∧ t.completed = false ∧
        t.notified = false ∧ (falsy priority = true → t.priority = "Medium") ∧
        (∀ doc, findOneByDate σ (date.getD "") = some doc →
          findOneByDate (addTask σ date subject priority notes nid).state
              (date.getD "")
            = some ⟨date.getD "", doc.tasks ++ [t]⟩ ∧
          (addTask σ date subject priority notes nid).state.map PlannerDoc.date
            = σ.map PlannerDoc.date) ∧
        (findOneByDate σ (date.getD "") = none →
          (addTask σ date subject priority notes nid).state
            = σ ++ [⟨date.getD "", [t]⟩])) := by
  constructor
  · intro h
    simp [addTask, h]
  · intro h
    refine ⟨⟨nid, subject.getD "",
      (if falsy priority then "Medium" else priority.getD ""),
      (if falsy notes then "" else notes.getD ""), false, false⟩, ?_⟩
    cases hfd : findOneByDate σ (date.getD "") with
    | some doc =>
      have hd : doc.date = date.getD "" := date_of_findOneByDate _ _ _ hfd
      refine ⟨by simp [addTask, h, hfd], by simp [addTask, h, hfd],
        by simp [addTask, h, hfd], rfl, rfl, rfl, rfl,
        fun hp => by simp [hp], ?_, ?_⟩
      · intro doc' hdoc'
        injection hdoc' with he
        subst he
        constructor
        · have hstate : (addTask σ date subject priority notes nid).state
              = updateFirst σ (fun d0 => d0.date == date.getD "")
                (fun d0 => { d0 with tasks := d0.tasks
                    ++ [⟨nid, subject.getD "",
                      (if falsy priority then "Medium" else priority.getD ""),
                      (if falsy notes then "" else notes.getD ""), false, false⟩] }) := by
            simp [addTask, h, hfd]
          rw [hstate, findOneByDate_updateFirst_self σ (date.getD "")
            (fun d0 => { d0 with tasks := d0.tasks
                ++ [⟨nid, subject.getD "",
                  (if falsy priority then "Medium" else priority.getD ""),
                  (if falsy notes then "" else notes.getD ""), false, false⟩] }) doc
            (fun _ => rfl) hfd]
          simp [hd]
        · have hstate : (addTask σ date subject priority notes nid).state
              = updateFirst σ (fun d0 => d0.date == date.getD "")
                (fun d0 => { d0 with tasks := d0.tasks
                    ++ [⟨nid, subject.getD "",
                      (if falsy priority then "Medium" else priority.getD ""),
                      (if falsy notes then "" else notes.getD ""), false, false⟩] }) := by
            simp [addTask, h, hfd]
          rw [hstate]
          exact map_date_updateFirst σ _ _ (fun _ => rfl)
      · intro h2
        cases h2
    | none =>
      refine ⟨by simp [addTask, h, hfd], by simp [addTask, h, hfd],
        by simp [addTask, h, hfd], rfl, rfl, rfl, rfl,
        fun hp => by simp [hp], ?_, ?_⟩
      · intro doc' hdoc'
        cases hdoc'
      · intro _
        simp [addTask, h, hfd]

/-- C5 (witness). -/
theorem add_task_spec_witness :
    addTask [] none (some "Math") none none 5 = ⟨400, none, [], 0⟩ ∧
    (addTask [⟨"a", []⟩] (some "a") (some "Math") none none 5).status = 201 ∧
    (addTask [⟨"a", []⟩] (some "a") (some "Math") none none 5).writes = 1 ∧
    ∃ t : PlannerTask,
      (addTask [⟨"a", []⟩] (some "a") (some "Math") none none 5).created = some t ∧
      t.completed = false ∧ t.notified = false ∧ t.priority = "Medium" ∧
      findOneByDate (addTask [⟨"a", []⟩] (some "a") (some "Math") none none 5).state "a"
        = some ⟨"a", [] ++ [t]⟩ := by
  refine ⟨(add_task_spec [] none (some "Math") none none 5).1 rfl, ?_⟩
  obtain ⟨t, h1, h2, h3, h4, h5, h6, h7, h8, h9, h10⟩ :=
    (add_task_spec [⟨"a", []⟩] (some "a") (some "Math") none none 5).2 rfl
  exact ⟨h1, h3, t, h2, h6, h7, h8 rfl, (h9 ⟨"a", []⟩ rfl).1⟩

/-- C1: moving an existing task from date A to a different date B answers
200, removes the task from A's sequence, and appends the very same task
record — all field values unchanged — to B's sequence, creating a document
for B when none exists. -/
theorem move_task_spec (σ : PlannerState) (A B : String) (i : Nat)
    (docA : PlannerDoc) (task : PlannerTask)
    (hA : findOneByDate σ A = some docA)
    (ht : docA.tasks.find? (fun t => t.id == i) = some task)
    (hB : B.isEmpty = false) (hBA : (B == A) = false) :
    (putPlanner σ A i none (some B)).status = 200 ∧
    findOneByDate (putPlanner σ A i none (some B)).state A
      = some ⟨A, docA.tasks.filter (fun t => t.id != i)⟩ ∧
    findOneByDate (putPlanner σ A i none (some B)).state B
      = some ⟨B, ((findOneByDate σ B).map PlannerDoc.tasks).getD [] ++ [task]⟩ := by
  have hBA2 : B ≠ A := by
    intro he
    rw [he] at hBA
    simp at hBA
  have hAB2 : A ≠ B := fun he => hBA2 he.symm
  have hAd : docA.date = A := date_of_findOneByDate σ A docA hA
  have h2A := findOneByDate_updateFirst_self σ A
    (fun doc => { doc with tasks := doc.tasks.filter (fun t => t.id != i) }) docA
    (fun _ => rfl) hA
  have h2B := findOneByDate_updateFirst_other σ A B
    (fun doc => { doc with tasks := doc.tasks.filter (fun t => t.id != i) })
    (fun _ => rfl) hBA2
  cases hfB : findOneByDate σ B with
  | some docB =>
    have hBd : docB.date = B := date_of_findOneByDate σ B docB hfB
    have hres : putPlanner σ A i none (some B)
        = ⟨200, updateFirst (updateFirst σ (fun doc => doc.date == A)
              (fun doc => { doc with tasks := doc.tasks.filter (fun t => t.id != i) }))
            (fun doc => doc.date == B)
            (fun doc => { doc with tasks := doc.tasks ++ [task] })⟩ := by
      simp [putPlanner, hB, hBA, hA, ht, h2B, hfB]
    rw [hres]
    refine ⟨rfl, ?_, ?_⟩
    · rw [show (PutResult.mk 200 (updateFirst (updateFirst σ (fun doc => doc.date == A)
            (fun doc => { doc with tasks := doc.tasks.filter (fun t => t.id != i) }))
          (fun doc => doc.date == B)
          (fun doc => { doc with tasks := doc.tasks ++ [task] }))).state
          = updateFirst (updateFirst σ (fun doc => doc.date == A)
              (fun doc => { doc with tasks := doc.tasks.filter (fun t => t.id != i) }))
            (fun doc => doc.date == B)
            (fun doc => { doc with tasks := doc.tasks ++ [task] }) from rfl,
        findOneByDate_updateFirst_other _ B A
          (fun doc => { doc with tasks := doc.tasks ++ [task] }) (fun _ => rfl) hAB2,
        h2A]
      simp [hAd]
    · have hfB2 : findOneByDate (updateFirst σ (fun doc => doc.date == A)
          (fun doc => { doc with tasks := doc.tasks.filter (fun t => t.id != i) })) B
          = some docB := by rw [h2B, hfB]
      rw [show (PutResult.mk 200 (updateFirst (updateFirst σ (fun doc => doc.date == A)
            (fun doc => { doc with tasks := doc.tasks.filter (fun t => t.id != i) }))
          (fun doc => doc.date == B)
          (fun doc => { doc with tasks := doc.tasks ++ [task] }))).state
          = updateFirst (updateFirst σ (fun doc => doc.date == A)
              (fun doc => { doc with tasks := doc.tasks.filter (fun t => t.id != i) }))
            (fun doc => doc.date == B)
            (fun doc => { doc with tasks := doc.tasks ++ [task] }) from rfl,
        findOneByDate_updateFirst_self _ B
          (fun doc => { doc with tasks := doc.tasks ++ [task] }) docB
          (fun _ => rfl) hfB2]
      simp [hBd]
  | none =>
    have hres : putPlanner σ A i none (some B)
        = ⟨200, updateFirst σ (fun doc => doc.date == A)
            (fun doc => { doc with tasks := doc.tasks.filter (fun t => t.id != i) })
            ++ [⟨B, [task]⟩]⟩ := by
      simp [putPlanner, hB, hBA, hA, ht, h2B, hfB]
    rw [hres]
    refine ⟨rfl, ?_, ?_⟩
    · simp only [findOneByDate] at h2A ⊢
      rw [List.find?_append, h2A]
      simp [hAd]
    · have h2B2 : findOneByDate (updateFirst σ (fun doc => doc.date == A)
          (fun doc => { doc with tasks := doc.tasks.filter (fun t => t.id != i) })) B
          = none := by rw [h2B, hfB]
      simp only [findOneByDate] at h2B2 ⊢
      rw [List.find?_append, h2B2]
      simp

/-- C1 (witness). -/
theorem move_task_spec_witness :
    (putPlanner [⟨"a", [⟨1, "M", "High", "n", false, false⟩]⟩] "a" 1 none
        (some "b")).status = 200 ∧
    findOneByDate (putPlanner [⟨"a", [⟨1, "M", "High", "n", false, false⟩]⟩] "a" 1 none
        (some "b")).state "a" = some ⟨"a", []⟩ ∧
    findOneByDate (putPlanner [⟨"a", [⟨1, "M", "High", "n", false, false⟩]⟩] "a" 1 none
        (some "b")).state "b" = some ⟨"b", [⟨1, "M", "High", "n", false, false⟩]⟩ := by
  obtain ⟨h1, h2, h3⟩ := move_task_spec [⟨"a", [⟨1, "M", "High", "n", false, false⟩]⟩]
    "a" "b" 1 ⟨"a", [⟨1, "M", "High", "n", false, false⟩]⟩
    ⟨1, "M", "High", "n", false, false⟩ rfl rfl rfl rfl
  exact ⟨h1, h2, h3⟩

/-- C2: POST /planner/notify/:id answers 404 when the date has no document
or its document holds no task with the id; 400 when the task is already
notified (the state unchanged in all three cases); otherwise, after a
successful send, it answers 200 and records notified = true, so an
immediate second call for the same task answers 400 and changes nothing. -/
theorem notify_spec (σ : PlannerState) (d : String) (i : Nat) :
    (findOneByDate σ d = none → notifyTask σ i d true = ⟨404, σ⟩) ∧
    (∀ doc, findOneByDate σ d = some doc →
      doc.tasks.find? (fun t => t.id == i) = none →
      notifyTask σ i d true = ⟨404, σ⟩) ∧
    (∀ t, findTask σ d i = some t → t.notified = true →
      notifyTask σ i d true = ⟨400, σ⟩) ∧
    (∀ t, findTask σ d i = some t → t.notified = false →
      (notifyTask σ i d true).status = 200 ∧
      findTask (notifyTask σ i d true).state d i = some { t with notified := true } ∧
      notifyTask (notifyTask σ i d true).state i d true
        = ⟨400, (notifyTask σ i d true).state⟩) := by
  refine ⟨?_, ?_, ?_, ?_⟩
  · intro h
    simp [notifyTask, h]
  · intro doc hfd hft
    simp [notifyTask, hfd, hft]
  · intro t ht hn
    rw [findTask] at ht
    cases hfd : findOneByDate σ d with
    | none => rw [hfd] at ht; simp at ht
    | some doc =>
      rw [hfd, Option.some_bind] at ht
      simp [notifyTask, hfd, ht, hn]
  · intro t ht hn
    rw [findTask] at ht
    cases hfd : findOneByDate σ d with
    | none => rw [hfd] at ht; simp at ht
    | some doc =>
      rw [hfd, Option.some_bind] at ht
      have hp : (doc.date == d && doc.tasks.any (fun t => t.id == i)) = true := by
        rw [Bool.and_eq_true]
        refine ⟨beq_date_of_findOneByDate σ d doc hfd, ?_⟩
        rw [List.any_eq_true]
        exact ⟨t, List.mem_of_find?_eq_some ht,
          List.find?_some (p := fun x : PlannerTask => x.id == i) ht⟩
      have hres : notifyTask σ i d true
          = ⟨200, updateFirst σ
              (fun doc => doc.date == d && doc.tasks.any (fun t => t.id == i))
              (fun doc => { doc with tasks := setFirstTask doc.tasks i (fun t => { t with notified := true }) })⟩ := by
        simp [notifyTask, hfd, ht, hn]
      have hstep := find?_updateFirst_of_stronger σ
        (fun doc => doc.date == d && doc.tasks.any (fun t => t.id == i))
        (fun x : PlannerDoc => x.date == d)
        (fun doc => { doc with tasks := setFirstTask doc.tasks i (fun t => { t with notified := true }) }) doc
        (fun x hx => ((Bool.and_eq_true _ _) ▸ hx).1) hfd hp
        (by exact beq_date_of_findOneByDate σ d doc hfd)
      have hstep2 : findOneByDate (updateFirst σ
          (fun doc => doc.date == d && doc.tasks.any (fun t => t.id == i))
          (fun doc => { doc with tasks := setFirstTask doc.tasks i (fun t => { t with notified := true }) })) d
          = some ⟨doc.date, setFirstTask doc.tasks i
              (fun t => { t with notified := true })⟩ := hstep
      have hftask : (setFirstTask doc.tasks i
          (fun t => { t with notified := true })).find? (fun t => t.id == i)
          = some { t with notified := true } :=
        find?_setFirstTask doc.tasks i (fun t => { t with notified := true }) t ht rfl
      refine ⟨by rw [hres], ?_, ?_⟩
      · rw [hres]
        show findTask (updateFirst σ _ _) d i = _
        rw [findTask, hstep2, Option.some_bind]
        exact hftask
      · rw [hres]
        show notifyTask (updateFirst σ _ _) i d true = _
        simp [notifyTask, hstep2, hftask]

/-- C2 (witness). -/
theorem notify_spec_witness :
    notifyTask [] 1 "a" true = ⟨404, []⟩ ∧
    notifyTask [⟨"a", []⟩] 1 "a" true = ⟨404, [⟨"a", []⟩]⟩ ∧
    notifyTask [⟨"a", [⟨1, "M", "High", "n", false, true⟩]⟩] 1 "a" true
      = ⟨400, [⟨"a", [⟨1, "M", "High", "n", false, true⟩]⟩]⟩ ∧
    (notifyTask [⟨"a", [⟨1, "M", "High", "n", false, false⟩]⟩] 1 "a" true).status = 200 ∧
    findTask (notifyTask [⟨"a", [⟨1, "M", "High", "n", false, false⟩]⟩] 1 "a"
        true).state "a" 1 = some ⟨1, "M", "High", "n", false, true⟩ ∧
    notifyTask (notifyTask [⟨"a", [⟨1, "M", "High", "n", false, false⟩]⟩] 1 "a"
        true).state 1 "a" true
      = ⟨400, (notifyTask [⟨"a", [⟨1, "M", "High", "n", false, false⟩]⟩] 1 "a"
          true).state⟩ := by
  refine ⟨(notify_spec [] "a" 1).1 rfl,
    (notify_spec [⟨"a", []⟩] "a" 1).2.1 ⟨"a", []⟩ rfl rfl,
    (notify_spec [⟨"a", [⟨1, "M", "High", "n", false, true⟩]⟩] "a" 1).2.2.1
      ⟨1, "M", "High", "n", false, true⟩ rfl rfl, ?_⟩
  obtain ⟨h1, h2, h3⟩ :=
    (notify_spec [⟨"a", [⟨1, "M", "High", "n", false, false⟩]⟩] "a" 1).2.2.2
      ⟨1, "M", "High", "n", false, false⟩ rfl rfl
  exact ⟨h1, h2, h3⟩

end StudentToolkit
